import Mathlib

/-
Verification development for the awraris CLI music player.

The definitions below are a shallow embedding of the playback subsystem:
  - the playlist store operations (src/utils/playlists.ts),
  - player discovery (detectAudioPlayer in src/utils/ytdlp.ts),
  - the single-track player (playAndAwait in src/utils/index.ts),
  - the playlist-play sequencer loop (handlePlaylistCommand, "play" branch),
  - the playlist continuation logic (handleYouTubeStream in src/utils/index.ts).

External effects are made explicit parameters: stream resolution is a
function from video id to an optional URL (None encodes a thrown
extraction error), player discovery is an optional player name plus a
probe function, child-process behaviour is a list of emitted events, and
the SIGINT stop signal is a pair of schedules saying during which loop
iterations the signal fires.
-/

set_option autoImplicit false

namespace Awraris

/-- A stored track, as in the `StoredTrack` interface of playlists.ts:
`id` and `url` are optional, `title` and `addedAt` are strings. -/
structure StoredTrack where
  id : Option String
  title : String
  url : Option String
  addedAt : String
deriving DecidableEq, Repr

/-- A playlist, as in the `Playlist` interface of playlists.ts. -/
structure Playlist where
  id : String
  name : String
  tracks : List StoredTrack
  createdAt : String
deriving DecidableEq, Repr

/-! ### Player argument shaping (handlePlaylistCommand lines 165-176,
playAndAwait lines 182-199) -/

/-- The argument vector built for the spawned player process.  Mirrors the
if/else chain on the player name in the source. -/
def playerArgs (player url : String) : List String :=
  if player = "cvlc" then [url, "--intf", "dummy", "--play-and-exit"]
  else if player = "mpv" then [url, "--no-video", "--really-quiet"]
  else if player = "afplay" then [url]
  else if player = "aplay" then ["-f", "cd"]
  else [url]

/-- The stdio configuration passed to spawn: `aplay` gets
`["pipe", "ignore", "pipe"]` (stdin left open), every other player gets
`"ignore"`. -/
inductive StdioMode where
  | allIgnored
  | pipeIgnorePipe
deriving DecidableEq, Repr

/-- Stdio shaping per player name, from the spawn calls in the source. -/
def playerStdio (player : String) : StdioMode :=
  if player = "aplay" then StdioMode.pipeIgnorePipe else StdioMode.allIgnored

/-! ### Player discovery (detectAudioPlayer, ytdlp.ts lines 375-402) -/

/-- Result of probing one candidate player with `--version`: either the
spawn errored (executable missing), or the process closed with a code. -/
inductive ProbeResult where
  | errored
  | closed (code : Int)
deriving DecidableEq, Repr

/-- The per-platform candidate lists from `detectAudioPlayer`; the
`players[currentPlatform] || players.linux` fallback sends every
unrecognized platform to the linux list. -/
def playersFor (plat : String) : List String :=
  if plat = "darwin" then ["afplay", "cvlc", "mpv"]
  else if plat = "linux" then ["cvlc", "mpv", "aplay"]
  else if plat = "win32" then ["cvlc", "mpv"]
  else ["cvlc", "mpv", "aplay"]

/-- The candidate loop of `detectAudioPlayer`: return the first candidate
whose probe closed with code 0; an errored probe or non-zero close falls
through to the next candidate. -/
def firstSuccessfulPlayer (probe : String → ProbeResult) : List String → Option String
  | [] => none
  | p :: rest =>
    if probe p = ProbeResult.closed 0 then some p
    else firstSuccessfulPlayer probe rest

/-- `detectAudioPlayer`, with the host platform and the probe behaviour as
explicit parameters. -/
def detectAudioPlayer (plat : String) (probe : String → ProbeResult) : Option String :=
  firstSuccessfulPlayer probe (playersFor plat)

/-! ### Single-track player (playAndAwait, index.ts lines 171-227) -/

/-- An event emitted by the spawned child process: a spawn-level error, a
close with an exit code, or an exit with an exit code. -/
inductive ProcEvent where
  | error
  | close (code : Int)
  | exited (code : Int)
deriving DecidableEq, Repr

/-- The boolean each single event handler would resolve with:
`error` resolves false, `close`/`exit` resolve `code === 0`. -/
def eventOutcome : ProcEvent → Bool
  | ProcEvent.error => false
  | ProcEvent.close c => c == 0
  | ProcEvent.exited c => c == 0

/-- One handler invocation guarded by the `finished` flag: once a result
is recorded, later events are ignored. -/
def awaitStep : Option Bool → ProcEvent → Option Bool
  | some b, _ => some b
  | none, e => some (eventOutcome e)

/-- The promise in `playAndAwait`, driven by the sequence of events the
child emits; `none` means no event ever fired (the promise stays pending). -/
def awaitOutcome (evs : List ProcEvent) : Option Bool :=
  evs.foldl awaitStep none

/-- `playAndAwait` top level: if no player is discovered the function
returns false immediately; otherwise the awaited promise decides. -/
def playAndAwaitOutcome (detected : Option String) (evs : List ProcEvent) : Option Bool :=
  match detected with
  | none => some false
  | some _ => awaitOutcome evs

/-! ### Playback sequencer (handlePlaylistCommand "play" branch, lines 118-199) -/

/-- Outcome of the URL-determination steps of one loop iteration:
`let url = track.url; if (!url && track.id) try resolve catch continue;
if (!url) skip`. -/
inductive UrlOutcome where
  | resolveFailed
  | missing
  | got (u : String)
deriving DecidableEq, Repr

/-- The URL-determination steps for one track. -/
def trackUrlOutcome (resolve : String → Option String) (t : StoredTrack) : UrlOutcome :=
  match t.url with
  | some u => UrlOutcome.got u
  | none =>
    match t.id with
    | some vid =>
      match resolve vid with
      | some u => UrlOutcome.got u
      | none => UrlOutcome.resolveFailed
    | none => UrlOutcome.missing

/-- Observable events of the sequencer loop, tagged with the loop index. -/
inductive SeqEv where
  | resolveFail (i : Nat) (title : String)
  | noUrl (i : Nat) (title : String)
  | probe (i : Nat)
  | noPlayer (i : Nat)
  | spawned (i : Nat) (player : String) (args : List String)
  | killSent (i : Nat)
deriving DecidableEq, Repr

/-- The `for` loop of the playlist "play" branch.  `resolve` is the stream
resolver, `detected` the (deterministic) result `detectAudioPlayer` keeps
returning, `stopRes i` / `stopPlay i` say whether SIGINT fires during
iteration i before playback / during playback.  `i` is the loop index,
`flag` the `stopRequested` flag at the loop boundary.  The SIGINT handler
kills the live child only when one is live (`stopPlay`), and the flag is
re-checked only at the top of the loop. -/
def playSeq (resolve : String → Option String) (detected : Option String)
    (stopRes stopPlay : Nat → Bool) : Nat → Bool → List StoredTrack → List SeqEv
  | _, _, [] => []
  | i, flag, t :: rest =>
    if flag then []
    else
      match trackUrlOutcome resolve t with
      | UrlOutcome.resolveFailed =>
          SeqEv.resolveFail i t.title ::
            playSeq resolve detected stopRes stopPlay (i + 1) (flag || stopRes i) rest
      | UrlOutcome.missing =>
          SeqEv.noUrl i t.title ::
            playSeq resolve detected stopRes stopPlay (i + 1) (flag || stopRes i) rest
      | UrlOutcome.got u =>
          SeqEv.probe i ::
            match detected with
            | none => [SeqEv.noPlayer i]
            | some p =>
                SeqEv.spawned i p (playerArgs p u) ::
                  ((if stopPlay i then [SeqEv.killSent i] else []) ++
                    playSeq resolve detected stopRes stopPlay (i + 1)
                      (flag || stopRes i || stopPlay i) rest)

/-- The events one track contributes when no stop signal fires and a
player is available: exactly one report (resolution failure / missing
URL) or one probe-and-spawn. -/
def trackEvents (resolve : String → Option String) (p : String) (i : Nat)
    (t : StoredTrack) : List SeqEv :=
  match trackUrlOutcome resolve t with
  | UrlOutcome.resolveFailed => [SeqEv.resolveFail i t.title]
  | UrlOutcome.missing => [SeqEv.noUrl i t.title]
  | UrlOutcome.got u => [SeqEv.probe i, SeqEv.spawned i p (playerArgs p u)]

/-- Spec-style statement of the undisturbed sequence: every track in
order contributes its own events, independently of its neighbours. -/
def seqSpecNoStop (resolve : String → Option String) (p : String) :
    Nat → List StoredTrack → List SeqEv
  | _, [] => []
  | i, t :: rest => trackEvents resolve p i t ++ seqSpecNoStop resolve p (i + 1) rest

/-- Number of player-discovery probes in a trace. -/
def probeCount (evs : List SeqEv) : Nat :=
  evs.countP fun e =>
    match e with
    | SeqEv.probe _ => true
    | _ => false

/-- Number of spawned player processes in a trace. -/
def spawnCount (evs : List SeqEv) : Nat :=
  evs.countP fun e =>
    match e with
    | SeqEv.spawned _ _ _ => true
    | _ => false

/-! ### Playlist store (playlists.ts) -/

/-- `loadPlaylists`: read and parse the store file; any failure is caught
and yields the empty collection.  The read-and-parse result is the
explicit parameter (`none` encodes an unreadable or unparsable file). -/
def loadPlaylists (readResult : Option (List Playlist)) : List Playlist :=
  match readResult with
  | some pls => pls
  | none => []

/-- The id-or-name predicate used by getPlaylist / add / remove. -/
def playlistMatches (key : String) (p : Playlist) : Bool :=
  p.id == key || p.name == key

/-- `getPlaylist`: first playlist whose id or name equals the key. -/
def getPlaylist (key : String) (lists : List Playlist) : Option Playlist :=
  lists.find? (playlistMatches key)

/-- `deletePlaylist`: keep exactly the playlists whose id and name both
differ from the key, and rewrite the store with the result. -/
def deletePlaylist (key : String) (lists : List Playlist) : List Playlist :=
  lists.filter fun p => p.id != key && p.name != key

/-! ### createPlaylist and its generated id (`Date.now().toString(36)`) -/

/-- One base-36 digit as produced by JavaScript `toString(36)`:
0-9 then lowercase a-z. -/
def base36Digit (n : Nat) : Char :=
  if n < 10 then Char.ofNat (48 + n) else Char.ofNat (87 + n)

/-- The base-36 digit string of a number, most significant digit first,
as produced by `Number.prototype.toString(36)` for a natural number. -/
def toBase36 (n : Nat) : List Char :=
  if _h : n < 36 then [base36Digit n]
  else toBase36 (n / 36) ++ [base36Digit (n % 36)]
decreasing_by exact Nat.div_lt_self (by omega) (by omega)

/-- Numeric value of one base-36 digit character. -/
def base36DigitVal (c : Char) : Nat :=
  if c.toNat ≤ 57 then c.toNat - 48 else c.toNat - 87

/-- Numeric value of a base-36 digit string. -/
def base36Val (l : List Char) : Nat :=
  l.foldl (fun acc c => acc * 36 + base36DigitVal c) 0

/-- `createPlaylist`: appends a fresh playlist with id
`Date.now().toString(36)`, the given name, no tracks and the current
timestamp, then rewrites the store.  `now` (milliseconds) and the
`createdAt` string are explicit parameters. -/
def createPlaylist (now : Nat) (createdAt : String) (nm : String)
    (lists : List Playlist) : Playlist × List Playlist :=
  let p : Playlist :=
    { id := String.mk (toBase36 now), name := nm, tracks := [], createdAt := createdAt }
  (p, lists ++ [p])

/-! ### Playlist continuation (handleYouTubeStream, index.ts lines 272-315) -/

/-- Does this playlist contain a track whose id equals the selected id?
(`pl.tracks.some(t => t.id === selectedVideo.id)`). -/
def containsTrackId (selId : String) (pl : Playlist) : Bool :=
  pl.tracks.any fun t => t.id == some selId

/-- The continuation suffix computed by handleYouTubeStream: the first
playlist (store order) containing the selected id, the first matching
position inside it, and the tracks strictly after that position when it
is not the last one. -/
def continuationTracks (selId : String) (playlists : List Playlist) : List StoredTrack :=
  match playlists.find? (containsTrackId selId) with
  | none => []
  | some pl =>
    let idx := pl.tracks.findIdx fun t => t.id == some selId
    if idx < pl.tracks.length - 1 then pl.tracks.drop (idx + 1) else []

/-- Events of the continuation loop over the suffix: per-track resolution
failures and missing URLs are reported and skipped, otherwise the track
is played and awaited. -/
inductive ContEv where
  | resolveFail (title : String)
  | noUrl (title : String)
  | played (title : String) (url : String)
deriving DecidableEq, Repr

/-- The continuation `for` loop (index.ts lines 288-307). -/
def contPlay (resolve : String → Option String) : List StoredTrack → List ContEv
  | [] => []
  | t :: rest =>
    match trackUrlOutcome resolve t with
    | UrlOutcome.resolveFailed => ContEv.resolveFail t.title :: contPlay resolve rest
    | UrlOutcome.missing => ContEv.noUrl t.title :: contPlay resolve rest
    | UrlOutcome.got u => ContEv.played t.title u :: contPlay resolve rest

/-- The title a continuation event reports. -/
def contEvTitle : ContEv → String
  | ContEv.resolveFail s => s
  | ContEv.noUrl s => s
  | ContEv.played s _ => s

/-- The tail of handleYouTubeStream after the ad-hoc track's own
playback: `played` is the ad-hoc track's outcome, already computed; the
continuation attempt reads the store (read failure giving the empty
collection), computes the continuation suffix and drives the
continuation loop; the function returns `played` unchanged together with
the continuation trace. -/
def adHocPlayTail (played : Bool) (readResult : Option (List Playlist))
    (resolve : String → Option String) (selId : String) : Bool × List ContEv :=
  let pls := loadPlaylists readResult
  let ts := continuationTracks selId pls
  (played, contPlay resolve ts)

/-! ## Helper lemmas -/

/-- Once the `finished` flag is set, later process events change nothing. -/
theorem foldl_awaitStep_some (evs : List ProcEvent) (b : Bool) :
    evs.foldl awaitStep (some b) = some b := by
  induction evs with
  | nil => rfl
  | cons e rest ih => simpa [awaitStep] using ih

/-- The first process event alone decides the awaited outcome. -/
theorem awaitOutcome_cons (e : ProcEvent) (evs : List ProcEvent) :
    awaitOutcome (e :: evs) = some (eventOutcome e) := by
  simp [awaitOutcome, awaitStep, foldl_awaitStep_some]

/-- A raised stop flag short-circuits the loop at its boundary. -/
theorem playSeq_flag_true (resolve : String → Option String) (detected : Option String)
    (stopRes stopPlay : Nat → Bool) (i : Nat) (ts : List StoredTrack) :
    playSeq resolve detected stopRes stopPlay i true ts = [] := by
  cases ts <;> simp [playSeq]

/-- The candidate loop returns the first candidate probing successfully. -/
theorem firstSuccessfulPlayer_append (probe : String → ProbeResult)
    (pre : List String) (p : String) (post : List String)
    (hpre : ∀ q ∈ pre, probe q ≠ ProbeResult.closed 0)
    (hp : probe p = ProbeResult.closed 0) :
    firstSuccessfulPlayer probe (pre ++ p :: post) = some p := by
  induction pre with
  | nil => simp [firstSuccessfulPlayer, hp]
  | cons q pre ih =>
    have hq : probe q ≠ ProbeResult.closed 0 := hpre q (by simp)
    simp only [List.cons_append, firstSuccessfulPlayer, if_neg hq]
    exact ih fun r hr => hpre r (by simp [hr])

/-- The candidate loop returns none when every probe fails. -/
theorem firstSuccessfulPlayer_none (probe : String → ProbeResult)
    (l : List String) (h : ∀ q ∈ l, probe q ≠ ProbeResult.closed 0) :
    firstSuccessfulPlayer probe l = none := by
  induction l with
  | nil => rfl
  | cons q rest ih =>
    have hq : probe q ≠ ProbeResult.closed 0 := h q (by simp)
    simp only [firstSuccessfulPlayer, if_neg hq]
    exact ih fun r hr => h r (by simp [hr])

/-- probeCount over a cons. -/
theorem probeCount_cons (e : SeqEv) (l : List SeqEv) :
    probeCount (e :: l)
      = probeCount l + (match e with | SeqEv.probe _ => 1 | _ => 0) := by
  cases e <;> simp [probeCount, List.countP_cons]

/-- spawnCount over a cons. -/
theorem spawnCount_cons (e : SeqEv) (l : List SeqEv) :
    spawnCount (e :: l)
      = spawnCount l + (match e with | SeqEv.spawned _ _ _ => 1 | _ => 0) := by
  cases e <;> simp [spawnCount, List.countP_cons]

/-- Decoding a base-36 digit recovers its value. -/
theorem base36DigitVal_base36Digit :
    ∀ k : Nat, k < 36 → base36DigitVal (base36Digit k) = k := by decide

/-- Value of a digit string with one digit appended. -/
theorem base36Val_concat (l : List Char) (c : Char) :
    base36Val (l ++ [c]) = base36Val l * 36 + base36DigitVal c := by
  simp [base36Val, List.foldl_append]

/-- Decoding inverts the base-36 rendering. -/
theorem base36Val_toBase36 (n : Nat) : base36Val (toBase36 n) = n := by
  induction n using Nat.strong_induction_on with
  | _ n ih =>
    rw [toBase36]
    split
    · next h => simp [base36Val, base36DigitVal_base36Digit n h]
    · next h =>
      rw [base36Val_concat, ih (n / 36) (Nat.div_lt_self (by omega) (by omega)),
        base36DigitVal_base36Digit (n % 36) (Nat.mod_lt n (by omega))]
      omega

/-- The base-36 rendering is injective. -/
theorem toBase36_inj (a b : Nat) (h : toBase36 a = toBase36 b) : a = b := by
  rw [← base36Val_toBase36 a, ← base36Val_toBase36 b, h]

/-- findIdx of a list whose first satisfying element sits after `pre`. -/
theorem findIdx_append_first {α : Type} (p : α → Bool) (pre : List α) (t : α)
    (suf : List α) (hpre : ∀ u ∈ pre, p u = false) (ht : p t = true) :
    (pre ++ t :: suf).findIdx p = pre.length := by
  induction pre with
  | nil => simp [List.findIdx_cons, ht]
  | cons q pre ih =>
    have hq : p q = false := hpre q (by simp)
    simp [List.findIdx_cons, hq, ih fun u hu => hpre u (by simp [hu])]

/-- Dropping past a front segment and one element leaves the suffix. -/
theorem drop_append_succ {α : Type} (pre : List α) (t : α) (suf : List α) :
    (pre ++ t :: suf).drop (pre.length + 1) = suf := by
  induction pre with
  | nil => simp
  | cons q pre ih => simp [ih]

/-! ## Claim theorems -/

/-- C7: for every URL the argument vector is
[url, "--intf", "dummy", "--play-and-exit"] for cvlc,
[url, "--no-video", "--really-quiet"] for mpv, [url] for afplay,
["-f", "cd"] for aplay (whose stdin is left open as a pipe), and [url]
for any other player name (stdio fully discarded). -/
theorem playerArgs_shaping (url : String) :
    playerArgs "cvlc" url = [url, "--intf", "dummy", "--play-and-exit"]
    ∧ playerArgs "mpv" url = [url, "--no-video", "--really-quiet"]
    ∧ playerArgs "afplay" url = [url]
    ∧ playerArgs "aplay" url = ["-f", "cd"]
    ∧ playerStdio "aplay" = StdioMode.pipeIgnorePipe
    ∧ playerStdio "cvlc" = StdioMode.allIgnored
    ∧ ∀ p : String, p ≠ "cvlc" → p ≠ "mpv" → p ≠ "afplay" → p ≠ "aplay" →
        playerArgs p url = [url] ∧ playerStdio p = StdioMode.allIgnored := by
  refine ⟨by simp [playerArgs], by simp [playerArgs], by simp [playerArgs],
    by simp [playerArgs], by simp [playerStdio], by simp [playerStdio], ?_⟩
  intro p h1 h2 h3 h4
  exact ⟨by simp [playerArgs, h1, h2, h3, h4], by simp [playerStdio, h4]⟩

/-- C7 witness: the generic fallback at the concrete player name "ffplay". -/
theorem playerArgs_shaping_witness :
    playerArgs "ffplay" "U" = ["U"] ∧ playerStdio "ffplay" = StdioMode.allIgnored :=
  (playerArgs_shaping "U").2.2.2.2.2.2 "ffplay"
    (by decide) (by decide) (by decide) (by decide)

/-- C8: detectAudioPlayer probes the ordered per-platform candidate list
(the linux list on unrecognized platforms), returns the first candidate
whose version-check closes with status 0 without probing later
candidates, silently advances over errored or non-zero probes, and
returns none when no candidate succeeds. -/
theorem detectAudioPlayer_contract :
    (playersFor "darwin" = ["afplay", "cvlc", "mpv"]
      ∧ playersFor "linux" = ["cvlc", "mpv", "aplay"]
      ∧ playersFor "win32" = ["cvlc", "mpv"])
    ∧ (∀ plat : String, plat ≠ "darwin" → plat ≠ "linux" → plat ≠ "win32" →
        playersFor plat = playersFor "linux")
    ∧ (∀ (plat : String) (probe : String → ProbeResult) (pre : List String)
        (p : String) (post : List String),
        playersFor plat = pre ++ p :: post →
        (∀ q ∈ pre, probe q ≠ ProbeResult.closed 0) →
        probe p = ProbeResult.closed 0 →
        detectAudioPlayer plat probe = some p)
    ∧ (∀ (plat : String) (probe : String → ProbeResult),
        (∀ q ∈ playersFor plat, probe q ≠ ProbeResult.closed 0) →
        detectAudioPlayer plat probe = none) := by
  refine ⟨⟨by simp [playersFor], by simp [playersFor], by simp [playersFor]⟩, ?_, ?_, ?_⟩
  · intro plat h1 h2 h3
    simp [playersFor, h1, h2, h3]
  · intro plat probe pre p post hsplit hpre hp
    unfold detectAudioPlayer
    rw [hsplit]
    exact firstSuccessfulPlayer_append probe pre p post hpre hp
  · intro plat probe h
    exact firstSuccessfulPlayer_none probe (playersFor plat) h

/-- C8 witness: on linux with cvlc erroring and mpv closing 0, discovery
returns mpv; with every probe failing it returns none. -/
theorem detectAudioPlayer_contract_witness :
    detectAudioPlayer "linux"
        (fun q => if q = "mpv" then ProbeResult.closed 0 else ProbeResult.errored)
      = some "mpv"
    ∧ detectAudioPlayer "linux" (fun _ => ProbeResult.errored) = none := by
  constructor
  · exact detectAudioPlayer_contract.2.2.1 "linux"
      (fun q => if q = "mpv" then ProbeResult.closed 0 else ProbeResult.errored)
      ["cvlc"] "mpv" ["aplay"] (by simp [playersFor]) (by decide) (by decide)
  · exact detectAudioPlayer_contract.2.2.2 "linux" (fun _ => ProbeResult.errored)
      (by decide)

/-- C6: the single-track player always resolves with a boolean: a spawn
error event yields false, close/exit with code 0 yields true, a non-zero
code yields false, the first event alone decides even when several
events fire for the same child, and a missing player resolves false. -/
theorem playAndAwait_resolves_once :
    (∀ (e : ProcEvent) (evs : List ProcEvent),
        awaitOutcome (e :: evs) = some (eventOutcome e))
    ∧ eventOutcome ProcEvent.error = false
    ∧ eventOutcome (ProcEvent.close 0) = true
    ∧ eventOutcome (ProcEvent.exited 0) = true
    ∧ (∀ c : Int, c ≠ 0 →
        eventOutcome (ProcEvent.close c) = false
        ∧ eventOutcome (ProcEvent.exited c) = false)
    ∧ (∀ evs : List ProcEvent, playAndAwaitOutcome none evs = some false)
    ∧ (∀ (p : String) (e : ProcEvent) (evs : List ProcEvent),
        playAndAwaitOutcome (some p) (e :: evs) = some (eventOutcome e)) := by
  refine ⟨awaitOutcome_cons, rfl, by decide, by decide, ?_, fun _ => rfl, ?_⟩
  · intro c hc
    constructor <;> simp [eventOutcome, hc]
  · intro p e evs
    simpa [playAndAwaitOutcome] using awaitOutcome_cons e evs

/-- C6 witness: a child that first errors then also reports close 0 still
resolves exactly once, with false; a non-zero exit resolves false. -/
theorem playAndAwait_resolves_once_witness :
    playAndAwaitOutcome (some "mpv") [ProcEvent.error, ProcEvent.close 0] = some false
    ∧ eventOutcome (ProcEvent.close 2) = false :=
  ⟨playAndAwait_resolves_once.2.2.2.2.2.2 "mpv" ProcEvent.error [ProcEvent.close 0],
    (playAndAwait_resolves_once.2.2.2.2.1 2 (by decide)).1⟩

/-- C1: with a player available and no stop signal, the playlist-play
loop produces, for every track in the original order, exactly that
track's own events — a resolution-failure report, a missing-URL report,
or a probe-and-spawn — so a per-track failure is reported and skipped
and every later track is still attempted; no failure aborts the
sequence. -/
theorem playSeq_failure_isolation (resolve : String → Option String) (p : String)
    (i : Nat) (ts : List StoredTrack) :
    playSeq resolve (some p) (fun _ => false) (fun _ => false) i false ts
      = seqSpecNoStop resolve p i ts := by
  induction ts generalizing i with
  | nil => rfl
  | cons t rest ih =>
    cases h : trackUrlOutcome resolve t <;>
      simp [playSeq, seqSpecNoStop, trackEvents, h, ih]

/-- C2: if the stop signal is raised while track k is playing, the trace
of the whole remaining loop is exactly the probe, the spawn of track k
and the termination request sent to its live child; the flag set by the
handler makes the loop exit at the next boundary, so no later track is
started. -/
theorem playSeq_stop_immediate (resolve : String → Option String) (p : String)
    (stopRes stopPlay : Nat → Bool) (k : Nat) (t : StoredTrack)
    (rest : List StoredTrack) (u : String)
    (hu : trackUrlOutcome resolve t = UrlOutcome.got u) (hs : stopPlay k = true) :
    playSeq resolve (some p) stopRes stopPlay k false (t :: rest)
      = [SeqEv.probe k, SeqEv.spawned k p (playerArgs p u), SeqEv.killSent k] := by
  simp [playSeq, hu, hs, playSeq_flag_true]

/-- C2 witness: stop raised during the first track of a two-track queue
kills its child and the second track never starts. -/
theorem playSeq_stop_immediate_witness :
    playSeq (fun _ => none) (some "mpv") (fun _ => false) (fun _ => true) 0 false
        [⟨none, "a", some "u1", "t"⟩, ⟨none, "b", some "u2", "t"⟩]
      = [SeqEv.probe 0, SeqEv.spawned 0 "mpv" (playerArgs "mpv" "u1"),
          SeqEv.killSent 0] :=
  playSeq_stop_immediate (fun _ => none) "mpv" (fun _ => false) (fun _ => true) 0
    ⟨none, "a", some "u1", "t"⟩ [⟨none, "b", some "u2", "t"⟩] "u1" rfl rfl

/-- C5 counterexample: on a two-track queue whose tracks both carry
stored URLs, with mpv available and no stop signal, the playlist-play
loop performs two player-discovery probes, so discovery is not invoked
at most once per call. -/
theorem playSeq_discovery_counterexample :
    probeCount (playSeq (fun _ => none) (some "mpv")
        (fun _ => false) (fun _ => false) 0 false
        [⟨none, "a", some "u1", "t"⟩, ⟨none, "b", some "u2", "t"⟩]) = 2
    ∧ ¬ probeCount (playSeq (fun _ => none) (some "mpv")
        (fun _ => false) (fun _ => false) 0 false
        [⟨none, "a", some "u1", "t"⟩, ⟨none, "b", some "u2", "t"⟩]) ≤ 1 := by
  constructor <;> decide

/-- C5 amended: player discovery is invoked once per track that yields a
playable URL (re-probed per track, not once per call); when discovery
returns none the sequence aborts at the first probe, with zero player
processes spawned and at most one probe in the whole trace. -/
theorem playSeq_discovery_per_track_and_abort :
    (∀ (resolve : String → Option String) (p : String) (i : Nat)
        (ts : List StoredTrack),
        probeCount (playSeq resolve (some p) (fun _ => false) (fun _ => false)
            i false ts)
          = ts.countP fun t =>
              match trackUrlOutcome resolve t with
              | UrlOutcome.got _ => true
              | _ => false)
    ∧ (∀ (resolve : String → Option String) (stopRes stopPlay : Nat → Bool)
        (i : Nat) (flag : Bool) (ts : List StoredTrack),
        spawnCount (playSeq resolve none stopRes stopPlay i flag ts) = 0
        ∧ probeCount (playSeq resolve none stopRes stopPlay i flag ts) ≤ 1) := by
  constructor
  · intro resolve p i ts
    induction ts generalizing i with
    | nil => rfl
    | cons t rest ih =>
      cases h : trackUrlOutcome resolve t <;>
        simp [playSeq, h, probeCount_cons, List.countP_cons, ih]
  · intro resolve stopRes stopPlay i flag ts
    induction ts generalizing i flag with
    | nil => simp [playSeq, probeCount, spawnCount]
    | cons t rest ih =>
      cases flag with
      | true => simp [playSeq_flag_true, probeCount, spawnCount]
      | false =>
        cases h : trackUrlOutcome resolve t with
        | resolveFailed =>
          have hrec := ih (i + 1) (stopRes i)
          simp [playSeq, h, probeCount_cons, spawnCount_cons]
          omega
        | missing =>
          have hrec := ih (i + 1) (stopRes i)
          simp [playSeq, h, probeCount_cons, spawnCount_cons]
          omega
        | got u =>
          simp [playSeq, h, probeCount_cons, spawnCount_cons, probeCount, spawnCount]

/-- C9 counterexample: two playlists created at the same millisecond
timestamp (here 81) are distinct playlists — their names differ — yet
createPlaylist assigns them the same generated id, so created ids are
not always unique. -/
theorem createPlaylist_id_counterexample :
    (createPlaylist 81 "T" "one" []).1
      ≠ (createPlaylist 81 "T" "two" (createPlaylist 81 "T" "one" []).2).1
    ∧ (createPlaylist 81 "T" "one" []).1.id
      = (createPlaylist 81 "T" "two" (createPlaylist 81 "T" "one" []).2).1.id := by
  constructor
  · intro h
    exact absurd (congrArg Playlist.name h) (by decide)
  · rfl

/-- C9 amended: the generated id is the base-36 rendering of the
creation timestamp, so playlists created at distinct timestamps always
get distinct ids, while creations sharing a millisecond share an id. -/
theorem createPlaylist_id_inj (n1 n2 : Nat) (c1 c2 nm1 nm2 : String)
    (l1 l2 : List Playlist) (h : n1 ≠ n2) :
    (createPlaylist n1 c1 nm1 l1).1.id ≠ (createPlaylist n2 c2 nm2 l2).1.id := by
  intro he
  apply h
  apply toBase36_inj
  simpa [createPlaylist] using congrArg String.data he

/-- C9 witness: creations at timestamps 0 and 1 get distinct ids. -/
theorem createPlaylist_id_inj_witness :
    (createPlaylist 0 "T" "a" []).1.id ≠ (createPlaylist 1 "T" "b" []).1.id :=
  createPlaylist_id_inj 0 1 "T" "T" "a" "b" [] [] (by decide)

/-- C10: deletePlaylist removes every playlist whose id or name equals
the key — all matches, not only the first, unlike getPlaylist which
returns the first match — keeps every playlist matching neither, and
rewrites the collection with unchanged contents when nothing matches. -/
theorem deletePlaylist_removes_all (key : String) (lists : List Playlist) :
    (∀ p ∈ lists, (p.id = key ∨ p.name = key) → p ∉ deletePlaylist key lists)
    ∧ (∀ p ∈ lists, p.id ≠ key → p.name ≠ key → p ∈ deletePlaylist key lists)
    ∧ ((∀ p ∈ lists, p.id ≠ key ∧ p.name ≠ key) → deletePlaylist key lists = lists)
    ∧ (∀ (q : Playlist) (rest : List Playlist), playlistMatches key q = true →
        getPlaylist key (q :: rest) = some q) := by
  refine ⟨?_, ?_, ?_, ?_⟩
  · intro p hp hmatch hmem
    simp only [deletePlaylist, List.mem_filter, Bool.and_eq_true, bne_iff_ne] at hmem
    rcases hmatch with h | h
    · exact hmem.2.1 h
    · exact hmem.2.2 h
  · intro p hp h1 h2
    simp only [deletePlaylist, List.mem_filter, Bool.and_eq_true, bne_iff_ne]
    exact ⟨hp, h1, h2⟩
  · intro h
    apply List.filter_eq_self.mpr
    intro p hp
    simp [bne_iff_ne, (h p hp).1, (h p hp).2]
  · intro q rest hq
    simp [getPlaylist, List.find?_cons, hq]

/-- C10 witness: with two playlists both named "n", deletePlaylist "n"
removes the second one as well, while getPlaylist "n" returns the first. -/
theorem deletePlaylist_removes_all_witness :
    (⟨"y", "n", [], "t"⟩ : Playlist)
        ∉ deletePlaylist "n" [⟨"x", "n", [], "t"⟩, ⟨"y", "n", [], "t"⟩]
    ∧ getPlaylist "n" [⟨"x", "n", [], "t"⟩, ⟨"y", "n", [], "t"⟩]
        = some ⟨"x", "n", [], "t"⟩ :=
  ⟨(deletePlaylist_removes_all "n" [⟨"x", "n", [], "t"⟩, ⟨"y", "n", [], "t"⟩]).1
      ⟨"y", "n", [], "t"⟩ (by simp) (Or.inr rfl),
    (deletePlaylist_removes_all "n" [⟨"y", "n", [], "t"⟩]).2.2.2
      ⟨"x", "n", [], "t"⟩ [⟨"y", "n", [], "t"⟩] (by decide)⟩

/-- C3: the continuation suffix is empty when no persisted playlist
contains the selected id; when the first containing playlist (in store
order) has its first matching track at a position with a non-empty
suffix, the continuation is exactly that suffix, and an empty suffix
(match on the last track) yields no continuation; the continuation loop
then attempts exactly those tracks in order. -/
theorem continuation_correctness :
    (∀ (selId : String) (playlists : List Playlist),
        (∀ pl ∈ playlists, containsTrackId selId pl = false) →
        continuationTracks selId playlists = [])
    ∧ (∀ (selId : String) (playlists : List Playlist) (pl : Playlist)
        (pre : List StoredTrack) (t : StoredTrack) (suf : List StoredTrack),
        playlists.find? (containsTrackId selId) = some pl →
        pl.tracks = pre ++ t :: suf →
        t.id = some selId →
        (∀ u ∈ pre, u.id ≠ some selId) →
        continuationTracks selId playlists = suf)
    ∧ (∀ (resolve : String → Option String) (ts : List StoredTrack),
        (contPlay resolve ts).map contEvTitle = ts.map StoredTrack.title) := by
  refine ⟨?_, ?_, ?_⟩
  · intro selId pls h
    have hnone : pls.find? (containsTrackId selId) = none :=
      List.find?_eq_none.mpr fun pl hpl => by simp [h pl hpl]
    simp [continuationTracks, hnone]
  · intro selId pls pl pre t suf hfind htracks ht hpre
    have hidx : ((pre ++ t :: suf).findIdx fun tr => tr.id == some selId)
        = pre.length :=
      findIdx_append_first _ pre t suf
        (fun u hu => by simp [beq_eq_false_iff_ne, hpre u hu]) (by simp [ht])
    simp only [continuationTracks, hfind, htracks, hidx]
    cases suf with
    | nil =>
      have hge : ¬ pre.length < (pre ++ [t]).length - 1 := by simp
      simp [hge]
    | cons s suf2 =>
      have hlt : pre.length < (pre ++ t :: s :: suf2).length - 1 := by
        simp [List.length_append]
      simp [hlt, drop_append_succ]
  · intro resolve ts
    induction ts with
    | nil => rfl
    | cons t rest ih =>
      cases h : trackUrlOutcome resolve t <;>
        simp [contPlay, contEvTitle, h, ih]

/-- C3 witness: for a stored playlist [A, B, C] and an ad-hoc play of B
matched by id, the continuation is exactly [C]. -/
theorem continuation_correctness_witness :
    continuationTracks "s2"
        [⟨"p1", "pl",
          [⟨some "s1", "A", none, "t"⟩, ⟨some "s2", "B", none, "t"⟩,
            ⟨some "s3", "C", none, "t"⟩], "t"⟩]
      = [⟨some "s3", "C", none, "t"⟩] :=
  continuation_correctness.2.1 "s2"
    [⟨"p1", "pl",
      [⟨some "s1", "A", none, "t"⟩, ⟨some "s2", "B", none, "t"⟩,
        ⟨some "s3", "C", none, "t"⟩], "t"⟩]
    ⟨"p1", "pl",
      [⟨some "s1", "A", none, "t"⟩, ⟨some "s2", "B", none, "t"⟩,
        ⟨some "s3", "C", none, "t"⟩], "t"⟩
    [⟨some "s1", "A", none, "t"⟩] ⟨some "s2", "B", none, "t"⟩
    [⟨some "s3", "C", none, "t"⟩] (by decide) rfl rfl (by decide)

/-- C4: the continuation attempt never changes the ad-hoc track's own
outcome: for every store-read result (including an unreadable store),
resolver behaviour and selected id, the value returned for the primary
track is exactly the primary outcome computed before the attempt; an
unreadable store yields the empty collection and an empty continuation
trace. -/
theorem continuation_best_effort :
    (∀ (played : Bool) (readResult : Option (List Playlist))
        (resolve : String → Option String) (selId : String),
        (adHocPlayTail played readResult resolve selId).1 = played)
    ∧ loadPlaylists none = []
    ∧ (∀ (played : Bool) (resolve : String → Option String) (selId : String),
        (adHocPlayTail played none resolve selId).2 = []) :=
  ⟨fun _ _ _ _ => rfl, rfl, fun _ _ _ => rfl⟩

end Awraris
